import Mathlib

/-!
AlgoYatra backend: shallow embedding and verification

This file embeds the service layer of the AlgoYatra backend (a coding-challenge
platform) in Lean 4 and proves properties of it.

Embedding conventions:
* Firestore timestamps are modelled by their `toMillis` value, a `Nat`.
* The document store is a `Store` structure holding the three collections as
  lists; `findById` is first-match lookup, faithful to keyed documents.
* Optional (possibly-absent) document fields are `Option` fields; the JS read
  `x.f || 0` becomes `(x.f).getD 0`.
* A service call that performs writes returns `Store × Except String α`: the
  store component is the state after whatever writes actually committed, even
  when the call ends in an error (Firestore writes are not rolled back when a
  later await throws).
* Fresh document ids generated by `collection.add` are passed in explicitly.
-/

deriving instance DecidableEq for Except

/-- Firestore `Timestamp`, identified with its millisecond value. -/
abbrev Timestamp := Nat

/-- `SubmissionStatus` from `submission.model.ts`. -/
inductive SubmissionStatus where
  | pending
  | approved
  | rejected
  | reviewed
deriving DecidableEq, Repr

/-- `Submission` from `submission.model.ts`. -/
structure Submission where
  id : String
  challengeId : String
  userId : String
  repositoryUrl : String
  submittedAt : Timestamp
  status : SubmissionStatus
  feedback : Option String := none
  reviewerId : Option String := none
  reviewedAt : Option Timestamp := none
  language : String
  points : Option Int := none
deriving DecidableEq, Repr

/-- `User` from `user.model.ts` (the fields the services touch).
`totalPoints` is declared required in the model but `updateTotalPoints`
reads it defensively with `|| 0`, so it is embedded as an `Option`. -/
structure User where
  id : String
  displayName : String
  email : String
  totalPoints : Option Int := none
  updatedAt : Option Timestamp := none
deriving DecidableEq, Repr

/-- `Challenge` from `challenge.model.ts` (the fields the services touch). -/
structure Challenge where
  id : String
  points : Int
  active : Bool
  startDate : Timestamp
  endDate : Timestamp
deriving DecidableEq, Repr

/-- The Firestore state seen by the services: the three collections. -/
structure Store where
  users : List User
  challenges : List Challenge
  submissions : List Submission
deriving DecidableEq, Repr

namespace Store

/-- `BaseRepository.findById` on the users collection. -/
def findUser (store : Store) (id : String) : Option User :=
  store.users.find? (fun u => u.id = id)

/-- `BaseRepository.findById` on the challenges collection. -/
def findChallenge (store : Store) (id : String) : Option Challenge :=
  store.challenges.find? (fun c => c.id = id)

/-- `BaseRepository.findById` on the submissions collection. -/
def findSubmission (store : Store) (id : String) : Option Submission :=
  store.submissions.find? (fun s => s.id = id)

/-- `SubmissionRepository.findUserChallengeSubmission`: first submission
matching both the user and the challenge (a `limit 1` query). -/
def findUserChallengeSubmission (store : Store) (userId challengeId : String) :
    Option Submission :=
  store.submissions.find? (fun s => s.userId = userId && s.challengeId = challengeId)

end Store

/-- The data parameter of `SubmissionService.submitSolution`
(`Omit<Submission, 'id' | 'submittedAt' | 'status'>`, restricted to the
fields the route actually sends). -/
structure SubmitData where
  userId : String
  challengeId : String
  repositoryUrl : String
  language : String
deriving DecidableEq, Repr

/-- `SubmissionService.submitSolution`. `nowT` is `DateHelpers.now()` and
`newId` the document id Firestore generates for the `create`. -/
def submitSolution (store : Store) (nowT : Timestamp) (newId : String)
    (data : SubmitData) : Store × Except String Submission :=
  match store.findUserChallengeSubmission data.userId data.challengeId with
  | some _ => (store, .error "User has already submitted a solution for this challenge")
  | none =>
    match store.findChallenge data.challengeId with
    | none => (store, .error "Challenge not found")
    | some challenge =>
      if !challenge.active then
        (store, .error "Challenge is not active")
      else if nowT > challenge.endDate then
        (store, .error "Challenge has ended")
      else
        let sub : Submission :=
          { id := newId
            challengeId := data.challengeId
            userId := data.userId
            repositoryUrl := data.repositoryUrl
            submittedAt := nowT
            status := .pending
            language := data.language }
        ({ store with submissions := store.submissions ++ [sub] }, .ok sub)

/-- `UserRepository.updateTotalPoints`: a single-document transaction that
reads the user, throws if absent, and otherwise writes
`totalPoints := (totalPoints || 0) + pointsToAdd` and a fresh `updatedAt`. -/
def updateTotalPoints (store : Store) (userId : String) (pointsToAdd : Int)
    (nowT : Timestamp) : Store × Except String Unit :=
  match store.findUser userId with
  | none => (store, .error ("User " ++ userId ++ " not found"))
  | some _ =>
    ({ store with
        users := store.users.map (fun v =>
          if v.id = userId then
            { v with
                totalPoints := some (v.totalPoints.getD 0 + pointsToAdd)
                updatedAt := some nowT }
          else v) },
     .ok ())

/-- The `status` parameter of `reviewSubmission`
(`SubmissionStatus.APPROVED | SubmissionStatus.REJECTED`). -/
inductive ReviewDecision where
  | approved
  | rejected
deriving DecidableEq, Repr

/-- The `SubmissionStatus` value a `ReviewDecision` stands for. -/
def ReviewDecision.toStatus : ReviewDecision → SubmissionStatus
  | .approved => .approved
  | .rejected => .rejected

/-- `SubmissionService.reviewSubmission`. The returned store reflects every
write that committed before a failure: the submission-field update is issued
before the points transaction and is not rolled back if that later step
throws. -/
def reviewSubmission (store : Store) (nowT : Timestamp) (id : String)
    (status : ReviewDecision) (feedback : String) (reviewerId : String) :
    Store × Except String (Option Submission) :=
  match store.findSubmission id with
  | none => (store, .error "Submission not found")
  | some submission =>
    if submission.status ≠ SubmissionStatus.pending then
      (store, .error "Submission has already been reviewed")
    else
      match store.findChallenge submission.challengeId with
      | none => (store, .error "Associated challenge not found")
      | some challenge =>
        let store1 : Store :=
          { store with
              submissions := store.submissions.map (fun s =>
                if s.id = id then
                  { s with
                      status := status.toStatus
                      feedback := some feedback
                      reviewedAt := some nowT
                      reviewerId := some reviewerId }
                else s) }
        match status with
        | .approved =>
          match updateTotalPoints store1 submission.userId challenge.points nowT with
          | (store2, .error e) => (store2, .error e)
          | (store2, .ok _) => (store2, .ok (store2.findSubmission id))
        | .rejected => (store1, .ok (store1.findSubmission id))

/-! ## Leaderboard aggregation (`leaderboard.service.ts`) -/

/-- Whether a submission's review timestamp lies in `[startT, nowT]`; a
missing `reviewedAt` never matches the range query. -/
def inWindow (startT nowT : Timestamp) (s : Submission) : Bool :=
  match s.reviewedAt with
  | some r => startT ≤ r && r ≤ nowT
  | none => false

/-- The repository query of the windowed leaderboards:
`status == APPROVED && reviewedAt >= startT && reviewedAt <= nowT`. -/
def windowedApproved (subs : List Submission) (startT nowT : Timestamp) :
    List Submission :=
  subs.filter (fun s => s.status = SubmissionStatus.approved && inWindow startT nowT s)

/-- The per-user accumulator of the grouping pass
(`{ points: number; submissionCount: number }`). -/
structure UserStats where
  points : Int
  submissionCount : Nat
deriving DecidableEq, Repr

/-- The `userPoints` record: an association list in key-insertion order,
matching the enumeration order of a JS object with string keys. -/
abbrev StatsMap := List (String × UserStats)

/-- First-match association lookup (`userPoints[userId]`). -/
def lookupStats (uid : String) : StatsMap → Option UserStats
  | [] => none
  | kv :: rest => if kv.1 = uid then some kv.2 else lookupStats uid rest

/-- The guard `if (!submission.reviewedAt || !submission.challengeId) continue`;
a falsy `challengeId` is the empty string. -/
def skipSub (s : Submission) : Bool :=
  s.reviewedAt.isNone || s.challengeId = ""

/-- `submission.points || 0` (the value summed by the leaderboard). -/
def subPoints (s : Submission) : Int :=
  s.points.getD 0

/-- One iteration of the grouping loop: skip guarded submissions, create a
missing entry, then add the points and bump the count. -/
def addSub (m : StatsMap) (s : Submission) : StatsMap :=
  if skipSub s then m
  else
    match lookupStats s.userId m with
    | none => m ++ [(s.userId, ⟨subPoints s, 1⟩)]
    | some _ =>
      m.map (fun kv =>
        if kv.1 = s.userId then
          (kv.1, ⟨kv.2.points + subPoints s, kv.2.submissionCount + 1⟩)
        else kv)

/-- The whole grouping pass over the fetched submissions. -/
def groupStats (l : List Submission) : StatsMap :=
  l.foldl addSub []

/-- Structural engine of the batching loop: the fuel bounds the number of
iterations, exactly like the loop index bound `i < userIds.length`. -/
def chunk10Go : Nat → List String → List (List String)
  | _, [] => []
  | 0, _ :: _ => []
  | n + 1, a :: as => (a :: as).take 10 :: chunk10Go n ((a :: as).drop 10)

/-- The batching loop `for (let i = 0; i < userIds.length; i += 10)` with
`slice(i, i + 10)`: consecutive chunks of at most 10 ids. -/
def chunk10 (l : List String) : List (List String) :=
  chunk10Go l.length l

/-- An entry of the weekly (resp. monthly) leaderboard:
`{ user, weeklyPoints, weeklySubmissions }` (resp. `monthlyPoints`,
`monthlySubmissions`). -/
structure LeaderboardEntry where
  user : User
  points : Int
  submissionCount : Nat
deriving DecidableEq, Repr

/-- The entries contributed by one identity batch: the users query
`where(documentId(), 'in', batch)` returns the existing users whose id is in
the batch, and each yields one entry carrying that user's grouped stats. -/
def batchEntries (users : List User) (m : StatsMap) (batch : List String) :
    List LeaderboardEntry :=
  (users.filter (fun u => batch.contains u.id)).map (fun u =>
    let stats := (lookupStats u.id m).getD ⟨0, 0⟩
    ⟨u, stats.points, stats.submissionCount⟩)

/-- The sort relation of `.sort((a, b) => b.points - a.points)`: a stable
sort with this comparator puts `a` no later than `b` exactly when
`b.points ≤ a.points`. -/
def entryGE (a b : LeaderboardEntry) : Prop :=
  b.points ≤ a.points

instance : DecidableRel entryGE := fun a b => Int.decLe b.points a.points

instance : IsTotal LeaderboardEntry entryGE :=
  ⟨fun a b => (Int.le_total b.points a.points).imp id id⟩

instance : IsTrans LeaderboardEntry entryGE :=
  ⟨fun _ _ _ h1 h2 => le_trans h2 h1⟩

/-- The common body of `getWeeklyLeaderboard` and `getMonthlyLeaderboard`
(the two methods are line-for-line identical except for the window start):
fetch approved submissions reviewed in `[startT, nowT]`, group by user,
resolve users in batches of 10, sort by points descending, truncate. -/
def windowedLeaderboard (store : Store) (startT nowT : Timestamp)
    (limit : Nat) : List LeaderboardEntry :=
  let allSubmissions := windowedApproved store.submissions startT nowT
  let userPoints := groupStats allSubmissions
  let userIds := userPoints.map Prod.fst
  if userIds.isEmpty then []
  else
    let entries := (chunk10 userIds).foldl
      (fun acc batch => acc ++ batchEntries store.users userPoints batch) []
    (entries.insertionSort entryGE).take limit

/-- `LeaderboardService.getWeeklyLeaderboard`; `startT` is
`DateHelpers.getStartOfWeek()` and `nowT` is `DateHelpers.now()`. -/
def getWeeklyLeaderboard (store : Store) (startT nowT : Timestamp)
    (limit : Nat) : List LeaderboardEntry :=
  windowedLeaderboard store startT nowT limit

/-- `LeaderboardService.getMonthlyLeaderboard`; `startT` is
`DateHelpers.getStartOfMonth()` and `nowT` is `DateHelpers.now()`. -/
def getMonthlyLeaderboard (store : Store) (startT nowT : Timestamp)
    (limit : Nat) : List LeaderboardEntry :=
  windowedLeaderboard store startT nowT limit

/-- The sort relation of the challenge leaderboard query
`orderBy('submittedAt', 'asc')`. -/
def subLE (a b : Submission) : Prop :=
  a.submittedAt ≤ b.submittedAt

instance : DecidableRel subLE := fun a b => Nat.decLe a.submittedAt b.submittedAt

instance : IsTotal Submission subLE :=
  ⟨fun a b => (Nat.le_total a.submittedAt b.submittedAt).imp id id⟩

instance : IsTrans Submission subLE :=
  ⟨fun _ _ _ h1 h2 => Nat.le_trans h1 h2⟩

/-- The approved submissions of one challenge. -/
def approvedFor (subs : List Submission) (challengeId : String) :
    List Submission :=
  subs.filter (fun s => s.challengeId = challengeId && s.status = SubmissionStatus.approved)

/-- `LeaderboardService.getChallengeLeaderboard`: the first `limit` approved
submissions of the challenge in submission-time ascending order, each
resolved to its submitter, pairs for unresolvable submitters dropped. -/
def getChallengeLeaderboard (store : Store) (challengeId : String)
    (limit : Nat) : List (User × Timestamp) :=
  let submissions :=
    ((approvedFor store.submissions challengeId).insertionSort subLE).take limit
  if submissions.isEmpty then []
  else
    submissions.foldl (fun acc s =>
      match store.findUser s.userId with
      | some u => acc ++ [(u, s.submittedAt)]
      | none => acc) []

/-! ## Concrete stores used to instantiate the theorems -/

/-- An active challenge worth 100 points with window `[100, 200]`. -/
def chA : Challenge :=
  { id := "c1", points := 100, active := true, startDate := 100, endDate := 200 }

/-- A registered user with 5 points. -/
def usrA : User :=
  { id := "u1", displayName := "Asha", email := "asha@example.com", totalPoints := some 5 }

/-- A second registered user with no `totalPoints` field yet. -/
def usrB : User :=
  { id := "u2", displayName := "Binu", email := "binu@example.com" }

/-- A pending submission by `usrA` for `chA`. -/
def subPend : Submission :=
  { id := "s1", challengeId := "c1", userId := "u1", repositoryUrl := "repo"
    submittedAt := 120, status := .pending, language := "ts" }

/-- An approved submission by `usrA` for `chA`, reviewed at 150, worth 100. -/
def subAppA : Submission :=
  { id := "s2", challengeId := "c1", userId := "u1", repositoryUrl := "repo"
    submittedAt := 110, status := .approved, reviewedAt := some 150
    language := "ts", points := some 100 }

/-- An approved submission by `usrB` for `chA`, reviewed at 160, worth 40. -/
def subAppB : Submission :=
  { id := "s3", challengeId := "c1", userId := "u2", repositoryUrl := "repo"
    submittedAt := 115, status := .approved, reviewedAt := some 160
    language := "ts", points := some 40 }

/-- A store with one active challenge, two users and a pending submission
by a user who has no competing submission. -/
def storePend : Store :=
  { users := [usrA, usrB], challenges := [chA], submissions := [subPend] }

/-- A store with no submission at all for `chA`. -/
def storeFresh : Store :=
  { users := [usrA, usrB], challenges := [chA], submissions := [] }

/-- Submission payload by a user who has not submitted yet. -/
def dataB : SubmitData :=
  { userId := "u2", challengeId := "c1", repositoryUrl := "repo", language := "ts" }

/-- A pending submission referencing a challenge that does not exist. -/
def subOrphan : Submission :=
  { id := "s4", challengeId := "cX", userId := "u1", repositoryUrl := "repo"
    submittedAt := 125, status := .pending, language := "ts" }

/-- A pending submission whose owning user does not exist. -/
def subGhost : Submission :=
  { id := "s5", challengeId := "c1", userId := "u9", repositoryUrl := "repo"
    submittedAt := 126, status := .pending, language := "ts" }

/-- A store exercising every review path: a reviewable pending submission,
an already-approved one, one with a dangling challenge reference, and one
whose owner is missing. -/
def storeMix : Store :=
  { users := [usrA, usrB], challenges := [chA]
    submissions := [subPend, subAppA, subOrphan, subGhost] }

/-- The submissions of `uid` that the grouping pass actually counts: not
skipped by the guard and owned by `uid`. -/
def countedFor (uid : String) (l : List Submission) : List Submission :=
  l.filter (fun s => !(skipSub s) && s.userId = uid)

/-- The exact points total the spec predicts for `uid` over submissions
`l`: the sum of the stored points values (missing read as zero). -/
def sumFor (uid : String) (l : List Submission) : Int :=
  ((countedFor uid l).map subPoints).sum

/-- The number of counted submissions of `uid` in `l`. -/
def cntFor (uid : String) (l : List Submission) : Nat :=
  (countedFor uid l).length

/-- Twenty-five distinct user ids, for the batching example. -/
def ids25 : List String :=
  (List.range 25).map (fun n => "user" ++ toString n)

/-- An approved submission by the missing user `u9`, reviewed at 155. -/
def subAppGhost : Submission :=
  { id := "s6", challengeId := "c1", userId := "u9", repositoryUrl := "repo"
    submittedAt := 105, status := .approved, reviewedAt := some 155
    language := "ts", points := some 7 }

/-- A store whose approved submissions include one by a deleted user. -/
def storeCh : Store :=
  { users := [usrA, usrB], challenges := [chA]
    submissions := [subAppB, subAppA, subAppGhost] }

/-! ## Theorems -/

/-- C2. With a 100-point challenge and a pending submission carrying no
`points` field, approving the submission succeeds but leaves the
submission's `points` unset: `reviewSubmission` stamps only
`status`, `feedback`, `reviewedAt` and `reviewerId`, and nothing in the
repository ever writes `points` onto a submission. The spec's claim that
the points value is defaulted from the challenge's point value at approval
time is therefore not implemented: the stored value stays `none`, not
`some 100`. -/
theorem c2_review_approval_leaves_points_unset :
    (reviewSubmission storePend 170 "s1" .approved "nice" "adm").2.isOk = true
    ∧ ((reviewSubmission storePend 170 "s1" .approved "nice" "adm").1.findSubmission
        "s1").map (fun s => (s.status, s.points))
      = some (SubmissionStatus.approved, none)
    ∧ chA.points = 100
    ∧ storePend.findChallenge "c1" = some chA := by
  decide

/-- C3, counterexample. The claim — every successfully created submission
happens while the challenge is active and within `[startDate, endDate]`,
in particular never strictly before the start date — is false:
`submitSolution` never compares the current time with `startDate`, so a
submission at time 50 against a challenge whose window is `[100, 200]`
succeeds. -/
theorem c3_counterexample_submit_before_start :
    ¬ (∀ (store : Store) (nowT : Timestamp) (newId : String) (data : SubmitData)
        (sub : Submission) (c : Challenge),
        (submitSolution store nowT newId data).2 = .ok sub →
        store.findChallenge data.challengeId = some c →
        c.active = true ∧ c.startDate ≤ nowT ∧ nowT ≤ c.endDate) := by
  intro h
  have h50 := h storeFresh 50 "s9" dataB
    { id := "s9", challengeId := "c1", userId := "u2", repositoryUrl := "repo"
      submittedAt := 50, status := .pending, language := "ts" }
    chA (by decide) (by decide)
  have : (100 : Nat) ≤ 50 := h50.2.1
  omega

/-- C3, amended. Whenever `submitSolution` succeeds, the referenced
challenge exists, its `active` flag is true, and the submission time is at
most `endDate`; the start date is not checked, so times strictly before
`startDate` are accepted. -/
theorem c3_submit_success_active_within_end (store : Store) (nowT : Timestamp)
    (newId : String) (data : SubmitData) (sub : Submission)
    (h : (submitSolution store nowT newId data).2 = .ok sub) :
    ∃ c, store.findChallenge data.challengeId = some c
      ∧ c.active = true ∧ nowT ≤ c.endDate := by
  simp only [submitSolution] at h
  cases hdup : store.findUserChallengeSubmission data.userId data.challengeId with
  | some s => rw [hdup] at h; exact absurd h (by simp)
  | none =>
    rw [hdup] at h
    cases hch : store.findChallenge data.challengeId with
    | none => rw [hch] at h; exact absurd h (by simp)
    | some c =>
      rw [hch] at h
      by_cases hact : c.active
      · by_cases hend : nowT > c.endDate
        · simp [hact, hend] at h
        · exact ⟨c, rfl, hact, Nat.le_of_not_lt hend⟩
      · simp [hact] at h

/-- C3, amended, witness: submitting at time 150 (inside the window of
`chA`) succeeds, and the amended theorem yields the active/end-date facts
at that input. -/
theorem c3_submit_success_active_within_end_witness :
    ∃ c, storeFresh.findChallenge dataB.challengeId = some c
      ∧ c.active = true ∧ 150 ≤ c.endDate :=
  c3_submit_success_active_within_end storeFresh 150 "s9" dataB
    { id := "s9", challengeId := "c1", userId := "u2", repositoryUrl := "repo"
      submittedAt := 150, status := .pending, language := "ts" }
    (by decide)

/-- C4. One theorem for `submitSolution`'s contract: a duplicate
(user, challenge) submission, a missing challenge, an inactive challenge
and a strictly-past end date each propagate the corresponding error and
leave the store untouched; submitting at exactly the end date is accepted;
otherwise exactly one new pending submission stamped with the current time
is appended; and the users collection (hence every user's points) is
unchanged in every case. -/
theorem c4_submitSolution_contract (store : Store) (nowT : Timestamp)
    (newId : String) (data : SubmitData) :
    ((∃ s ∈ store.submissions,
        s.userId = data.userId ∧ s.challengeId = data.challengeId) →
      submitSolution store nowT newId data =
        (store, .error "User has already submitted a solution for this challenge"))
    ∧ (store.findUserChallengeSubmission data.userId data.challengeId = none →
        store.findChallenge data.challengeId = none →
        submitSolution store nowT newId data = (store, .error "Challenge not found"))
    ∧ (∀ c, store.findUserChallengeSubmission data.userId data.challengeId = none →
        store.findChallenge data.challengeId = some c →
        c.active = false →
        submitSolution store nowT newId data = (store, .error "Challenge is not active"))
    ∧ (∀ c, store.findUserChallengeSubmission data.userId data.challengeId = none →
        store.findChallenge data.challengeId = some c →
        c.active = true → c.endDate < nowT →
        submitSolution store nowT newId data = (store, .error "Challenge has ended"))
    ∧ (∀ c, store.findUserChallengeSubmission data.userId data.challengeId = none →
        store.findChallenge data.challengeId = some c →
        c.active = true → nowT ≤ c.endDate →
        submitSolution store nowT newId data =
          ({ store with submissions := store.submissions ++
              [{ id := newId, challengeId := data.challengeId, userId := data.userId
                 repositoryUrl := data.repositoryUrl, submittedAt := nowT
                 status := .pending, language := data.language }] },
           .ok { id := newId, challengeId := data.challengeId, userId := data.userId
                 repositoryUrl := data.repositoryUrl, submittedAt := nowT
                 status := .pending, language := data.language }))
    ∧ (submitSolution store nowT newId data).1.users = store.users := by
  refine ⟨?_, ?_, ?_, ?_, ?_, ?_⟩
  · intro hex
    have hsome : (store.findUserChallengeSubmission data.userId data.challengeId).isSome := by
      rcases hex with ⟨s, hmem, hu, hc⟩
      rw [Store.findUserChallengeSubmission, List.find?_isSome]
      exact ⟨s, hmem, by simp [hu, hc]⟩
    rcases Option.isSome_iff_exists.mp hsome with ⟨s, hs⟩
    simp only [submitSolution, hs]
  · intro hdup hch
    simp only [submitSolution, hdup, hch]
  · intro c hdup hch hact
    simp only [submitSolution, hdup, hch, hact]
    rfl
  · intro c hdup hch hact hend
    have : nowT > c.endDate := hend
    simp only [submitSolution, hdup, hch, hact]
    simp [this]
  · intro c hdup hch hact hend
    have hnot : ¬ nowT > c.endDate := Nat.not_lt.mpr hend
    simp only [submitSolution, hdup, hch, hact]
    simp [hnot]
  · simp only [submitSolution]
    cases hdup : store.findUserChallengeSubmission data.userId data.challengeId with
    | some s => rfl
    | none =>
      cases hch : store.findChallenge data.challengeId with
      | none => rfl
      | some c =>
        by_cases hact : c.active
        · by_cases hend : nowT > c.endDate
          · simp [hact, hend]
          · simp [hact, hend]
        · simp [hact]

/-- C4, witness: in a store with a pending submission by `usrA` for `chA`,
a duplicate submission by `usrA` fails with the duplicate error, while a
first submission by `usrB` at exactly the end date 200 succeeds and appends
one pending submission stamped 200; users are unchanged in both cases. -/
theorem c4_submitSolution_contract_witness :
    (submitSolution storePend 200 "s9"
        { userId := "u1", challengeId := "c1", repositoryUrl := "repo", language := "ts" } =
      (storePend, .error "User has already submitted a solution for this challenge"))
    ∧ (submitSolution storePend 200 "s9" dataB =
        ({ storePend with submissions := storePend.submissions ++
            [{ id := "s9", challengeId := "c1", userId := "u2", repositoryUrl := "repo"
               submittedAt := 200, status := .pending, language := "ts" }] },
         .ok { id := "s9", challengeId := "c1", userId := "u2", repositoryUrl := "repo"
               submittedAt := 200, status := .pending, language := "ts" }))
    ∧ (submitSolution storePend 200 "s9" dataB).1.users = storePend.users := by
  refine ⟨?_, ?_, ?_⟩
  · exact (c4_submitSolution_contract storePend 200 "s9"
      { userId := "u1", challengeId := "c1", repositoryUrl := "repo", language := "ts" }).1
      ⟨subPend, by decide, by decide, by decide⟩
  · exact (c4_submitSolution_contract storePend 200 "s9" dataB).2.2.2.2.1 chA
      (by decide) (by decide) (by decide) (by decide)
  · exact (c4_submitSolution_contract storePend 200 "s9" dataB).2.2.2.2.2

/-- C5. `reviewSubmission` failure cases: a missing submission, a
submission whose status is not pending (for either requested outcome), and
a missing referenced challenge each produce the corresponding error with
the store — submissions and users alike — completely unchanged. -/
theorem c5_reviewSubmission_failures (store : Store) (nowT : Timestamp)
    (id : String) (decision : ReviewDecision) (feedback reviewerId : String) :
    (store.findSubmission id = none →
      reviewSubmission store nowT id decision feedback reviewerId =
        (store, .error "Submission not found"))
    ∧ (∀ s, store.findSubmission id = some s → s.status ≠ SubmissionStatus.pending →
        reviewSubmission store nowT id decision feedback reviewerId =
          (store, .error "Submission has already been reviewed"))
    ∧ (∀ s, store.findSubmission id = some s → s.status = SubmissionStatus.pending →
        store.findChallenge s.challengeId = none →
        reviewSubmission store nowT id decision feedback reviewerId =
          (store, .error "Associated challenge not found")) := by
  refine ⟨?_, ?_, ?_⟩
  · intro hnone
    simp only [reviewSubmission, hnone]
  · intro s hs hstat
    simp only [reviewSubmission, hs]
    simp [hstat]
  · intro s hs hstat hch
    simp only [reviewSubmission, hs, hstat, hch]
    simp

/-- C5, witness: in `storeMix`, reviewing an unknown id, re-reviewing the
already-approved `s2` (with the opposite outcome), and reviewing `s4`,
whose challenge is missing, each fail with the matching error and leave
the store unchanged. -/
theorem c5_reviewSubmission_failures_witness :
    (reviewSubmission storeMix 180 "s99" .approved "fb" "adm" =
      (storeMix, .error "Submission not found"))
    ∧ (reviewSubmission storeMix 180 "s2" .rejected "fb" "adm" =
        (storeMix, .error "Submission has already been reviewed"))
    ∧ (reviewSubmission storeMix 180 "s4" .approved "fb" "adm" =
        (storeMix, .error "Associated challenge not found")) := by
  refine ⟨?_, ?_, ?_⟩
  · exact (c5_reviewSubmission_failures storeMix 180 "s99" .approved "fb" "adm").1
      (by decide)
  · exact (c5_reviewSubmission_failures storeMix 180 "s2" .rejected "fb" "adm").2.1
      subAppA (by decide) (by decide)
  · exact (c5_reviewSubmission_failures storeMix 180 "s4" .approved "fb" "adm").2.2
      subOrphan (by decide) (by decide) (by decide)

/-- Helper: looking up the targeted user after the conditional map of
`updateTotalPoints` yields the old record with the incremented points. -/
theorem find?_user_points_map (l : List User) (uid : String) (p : Int)
    (t : Timestamp) (u : User)
    (hu : l.find? (fun v => v.id = uid) = some u) :
    (l.map (fun v =>
        if v.id = uid then
          { v with totalPoints := some (v.totalPoints.getD 0 + p), updatedAt := some t }
        else v)).find? (fun v => v.id = uid)
      = some { u with totalPoints := some (u.totalPoints.getD 0 + p), updatedAt := some t } := by
  induction l with
  | nil => simp at hu
  | cons a as ih =>
    by_cases h : a.id = uid
    · rw [List.find?_cons_of_pos _ (by simp [h])] at hu
      obtain rfl : a = u := Option.some.inj hu
      simp only [List.map_cons, if_pos h]
      exact List.find?_cons_of_pos _ (by simp [h])
    · rw [List.find?_cons_of_neg _ (by simp [h])] at hu
      simp only [List.map_cons, if_neg h]
      rw [List.find?_cons_of_neg _ (by simp [h])]
      exact ih hu

/-- Helper: the conditional map of `updateTotalPoints` keeps every user
with a different id. -/
theorem mem_user_points_map (l : List User) (uid : String) (p : Int)
    (t : Timestamp) (v : User) (hv : v ∈ l) (hne : v.id ≠ uid) :
    v ∈ l.map (fun w =>
        if w.id = uid then
          { w with totalPoints := some (w.totalPoints.getD 0 + p), updatedAt := some t }
        else w) := by
  have h : (if v.id = uid then
      { v with totalPoints := some (v.totalPoints.getD 0 + p), updatedAt := some t }
    else v) = v := if_neg hne
  rw [← h]
  exact List.mem_map_of_mem _ hv

/-- C6. Successful review of a pending submission whose user exists:
approval moves the owner's `totalPoints` from its old value (absent read as
zero) to old + challenge points, rewrites only that one user document and
keeps every other user untouched; rejection succeeds and leaves the entire
users collection unchanged. -/
theorem c6_review_points_award (store : Store) (nowT : Timestamp) (id : String)
    (feedback reviewerId : String) (s : Submission) (ch : Challenge) (u : User)
    (hs : store.findSubmission id = some s)
    (hstat : s.status = SubmissionStatus.pending)
    (hch : store.findChallenge s.challengeId = some ch)
    (hu : store.findUser s.userId = some u) :
    ((reviewSubmission store nowT id .approved feedback reviewerId).2.isOk = true)
    ∧ ((reviewSubmission store nowT id .approved feedback reviewerId).1.findUser s.userId
        = some { u with totalPoints := some (u.totalPoints.getD 0 + ch.points)
                        updatedAt := some nowT })
    ∧ (∀ v ∈ store.users, v.id ≠ s.userId →
        v ∈ (reviewSubmission store nowT id .approved feedback reviewerId).1.users)
    ∧ ((reviewSubmission store nowT id .rejected feedback reviewerId).2.isOk = true)
    ∧ ((reviewSubmission store nowT id .rejected feedback reviewerId).1.users
        = store.users) := by
  have happr : reviewSubmission store nowT id .approved feedback reviewerId =
      ({ store with
          users := store.users.map (fun v =>
            if v.id = s.userId then
              { v with totalPoints := some (v.totalPoints.getD 0 + ch.points)
                       updatedAt := some nowT }
            else v)
          submissions := store.submissions.map (fun x =>
            if x.id = id then
              { x with status := SubmissionStatus.approved, feedback := some feedback
                       reviewedAt := some nowT, reviewerId := some reviewerId }
            else x) },
        .ok (({ store with
          users := store.users.map (fun v =>
            if v.id = s.userId then
              { v with totalPoints := some (v.totalPoints.getD 0 + ch.points)
                       updatedAt := some nowT }
            else v)
          submissions := store.submissions.map (fun x =>
            if x.id = id then
              { x with status := SubmissionStatus.approved, feedback := some feedback
                       reviewedAt := some nowT, reviewerId := some reviewerId }
            else x) } : Store).findSubmission id)) := by
    simp only [reviewSubmission, hs, hstat, hch]
    simp only [updateTotalPoints]
    have : ({ store with
        submissions := store.submissions.map (fun x =>
          if x.id = id then
            { x with status := ReviewDecision.approved.toStatus, feedback := some feedback
                     reviewedAt := some nowT, reviewerId := some reviewerId }
          else x) } : Store).findUser s.userId = some u := hu
    simp only [this]
    simp [ReviewDecision.toStatus]
  have hrej : reviewSubmission store nowT id .rejected feedback reviewerId =
      ({ store with
          submissions := store.submissions.map (fun x =>
            if x.id = id then
              { x with status := SubmissionStatus.rejected, feedback := some feedback
                       reviewedAt := some nowT, reviewerId := some reviewerId }
            else x) },
        .ok (({ store with
          submissions := store.submissions.map (fun x =>
            if x.id = id then
              { x with status := SubmissionStatus.rejected, feedback := some feedback
                       reviewedAt := some nowT, reviewerId := some reviewerId }
            else x) } : Store).findSubmission id)) := by
    simp only [reviewSubmission, hs, hstat, hch]
    simp [ReviewDecision.toStatus]
  refine ⟨?_, ?_, ?_, ?_, ?_⟩
  · rw [happr]; rfl
  · rw [happr]
    exact find?_user_points_map store.users s.userId ch.points nowT u hu
  · intro v hv hne
    rw [happr]
    exact mem_user_points_map store.users s.userId ch.points nowT v hv hne
  · rw [hrej]; rfl
  · rw [hrej]

/-- C6, witness: approving pending submission `s1` in `storeMix` succeeds
and moves `usrA` from 5 to 105 points (challenge worth 100), keeps `usrB`
untouched, and rejecting it instead leaves the users collection as it
was. -/
theorem c6_review_points_award_witness :
    ((reviewSubmission storeMix 180 "s1" .approved "fb" "adm").2.isOk = true)
    ∧ ((reviewSubmission storeMix 180 "s1" .approved "fb" "adm").1.findUser "u1"
        = some { usrA with totalPoints := some 105, updatedAt := some 180 })
    ∧ (usrB ∈ (reviewSubmission storeMix 180 "s1" .approved "fb" "adm").1.users)
    ∧ ((reviewSubmission storeMix 180 "s1" .rejected "fb" "adm").2.isOk = true)
    ∧ ((reviewSubmission storeMix 180 "s1" .rejected "fb" "adm").1.users
        = storeMix.users) := by
  have h := c6_review_points_award storeMix 180 "s1" "fb" "adm" subPend chA usrA
    (by decide) (by decide) (by decide) (by decide)
  exact ⟨h.1, h.2.1.trans (by decide), h.2.2.1 usrB (by decide) (by decide),
    h.2.2.2.1, h.2.2.2.2⟩

/-- Helper: looking up the targeted submission after the conditional
stamping map of `reviewSubmission` yields the old record with the review
fields stamped. -/
theorem find?_sub_stamp_map (l : List Submission) (id : String)
    (st : SubmissionStatus) (fb rv : String) (t : Timestamp) (s : Submission)
    (hs : l.find? (fun x => x.id = id) = some s) :
    (l.map (fun x =>
        if x.id = id then
          { x with status := st, feedback := some fb
                   reviewedAt := some t, reviewerId := some rv }
        else x)).find? (fun x => x.id = id)
      = some { s with status := st, feedback := some fb
                      reviewedAt := some t, reviewerId := some rv } := by
  induction l with
  | nil => simp at hs
  | cons a as ih =>
    by_cases h : a.id = id
    · rw [List.find?_cons_of_pos _ (by simp [h])] at hs
      obtain rfl : a = s := Option.some.inj hs
      simp only [List.map_cons, if_pos h]
      exact List.find?_cons_of_pos _ (by simp [h])
    · rw [List.find?_cons_of_neg _ (by simp [h])] at hs
      simp only [List.map_cons, if_neg h]
      rw [List.find?_cons_of_neg _ (by simp [h])]
      exact ih hs

/-- C9. Approving a pending submission whose owning user record is absent:
the submission-field write has already committed when the points
transaction throws, so the call propagates the user-not-found error while
the submission is left stamped APPROVED (feedback, reviewedAt and
reviewerId included) and no user document changes — there is no
rollback of the earlier write. -/
theorem c9_review_missing_user (store : Store) (nowT : Timestamp) (id : String)
    (feedback reviewerId : String) (s : Submission) (ch : Challenge)
    (hs : store.findSubmission id = some s)
    (hstat : s.status = SubmissionStatus.pending)
    (hch : store.findChallenge s.challengeId = some ch)
    (hu : store.findUser s.userId = none) :
    ((reviewSubmission store nowT id .approved feedback reviewerId).2
        = .error ("User " ++ s.userId ++ " not found"))
    ∧ ((reviewSubmission store nowT id .approved feedback reviewerId).1.users
        = store.users)
    ∧ ((reviewSubmission store nowT id .approved feedback reviewerId).1.findSubmission id
        = some { s with status := SubmissionStatus.approved, feedback := some feedback
                        reviewedAt := some nowT, reviewerId := some reviewerId }) := by
  have hrun : reviewSubmission store nowT id .approved feedback reviewerId =
      ({ store with
          submissions := store.submissions.map (fun x =>
            if x.id = id then
              { x with status := SubmissionStatus.approved, feedback := some feedback
                       reviewedAt := some nowT, reviewerId := some reviewerId }
            else x) },
        .error ("User " ++ s.userId ++ " not found")) := by
    simp only [reviewSubmission, hs, hstat, hch]
    simp only [updateTotalPoints]
    have : ({ store with
        submissions := store.submissions.map (fun x =>
          if x.id = id then
            { x with status := ReviewDecision.approved.toStatus, feedback := some feedback
                     reviewedAt := some nowT, reviewerId := some reviewerId }
          else x) } : Store).findUser s.userId = none := hu
    simp only [this]
    simp [ReviewDecision.toStatus]
  refine ⟨?_, ?_, ?_⟩
  · rw [hrun]
  · rw [hrun]
  · rw [hrun]
    exact find?_sub_stamp_map store.submissions id SubmissionStatus.approved
      feedback reviewerId nowT s hs

/-- C9, witness: approving `s5` in `storeMix`, whose owner `u9` has no user
record, fails with the user-not-found error yet leaves `s5` stamped
APPROVED with the review metadata, and the users collection unchanged. -/
theorem c9_review_missing_user_witness :
    ((reviewSubmission storeMix 180 "s5" .approved "fb" "adm").2
        = .error "User u9 not found")
    ∧ ((reviewSubmission storeMix 180 "s5" .approved "fb" "adm").1.users
        = storeMix.users)
    ∧ ((reviewSubmission storeMix 180 "s5" .approved "fb" "adm").1.findSubmission "s5"
        = some { subGhost with status := SubmissionStatus.approved, feedback := some "fb"
                               reviewedAt := some 180, reviewerId := some "adm" }) := by
  have h := c9_review_missing_user storeMix 180 "s5" "fb" "adm" subGhost chA
    (by decide) (by decide) (by decide) (by decide)
  exact ⟨h.1.trans (by decide), h.2.1, h.2.2⟩

/-- Helper: with enough fuel, concatenating the chunks gives back the
original list. -/
theorem chunk10Go_flatten (n : Nat) : ∀ l : List String, l.length ≤ n →
    (chunk10Go n l).flatten = l := by
  induction n with
  | zero =>
    intro l hl
    have : l = [] := List.eq_nil_of_length_eq_zero (Nat.le_zero.mp hl)
    subst this
    rfl
  | succ n ih =>
    intro l hl
    cases l with
    | nil => rfl
    | cons a as =>
      simp only [chunk10Go, List.flatten_cons]
      rw [ih ((a :: as).drop 10) (by simp only [List.length_drop, List.length_cons] at hl ⊢; omega),
        List.take_append_drop]

/-- Helper: concatenating the chunks gives back the original id list, so
the union of the ids queried across batches is exactly the grouped id
set. -/
theorem chunk10_flatten (l : List String) : (chunk10 l).flatten = l :=
  chunk10Go_flatten l.length l (Nat.le_refl _)

/-- Helper: with enough fuel, the number of chunks is `⌈n / 10⌉`. -/
theorem chunk10Go_length (n : Nat) : ∀ l : List String, l.length ≤ n →
    (chunk10Go n l).length = (l.length + 9) / 10 := by
  induction n with
  | zero =>
    intro l hl
    have : l = [] := List.eq_nil_of_length_eq_zero (Nat.le_zero.mp hl)
    subst this
    rfl
  | succ n ih =>
    intro l hl
    cases l with
    | nil => rfl
    | cons a as =>
      simp only [chunk10Go, List.length_cons]
      rw [ih ((a :: as).drop 10) (by simp only [List.length_drop, List.length_cons] at hl ⊢; omega)]
      simp only [List.length_drop, List.length_cons]
      omega

/-- Helper: the number of chunks is `⌈n / 10⌉`. -/
theorem chunk10_length (l : List String) :
    (chunk10 l).length = (l.length + 9) / 10 :=
  chunk10Go_length l.length l (Nat.le_refl _)

/-- Helper: every chunk holds at most 10 ids. -/
theorem chunk10Go_mem_le (n : Nat) : ∀ l : List String, ∀ b ∈ chunk10Go n l,
    b.length ≤ 10 := by
  induction n with
  | zero =>
    intro l b hb
    cases l <;> simp [chunk10Go] at hb
  | succ n ih =>
    intro l b hb
    cases l with
    | nil => simp [chunk10Go] at hb
    | cons a as =>
      simp only [chunk10Go] at hb
      rcases List.mem_cons.mp hb with h | h
      · subst h
        simp [List.length_take]
      · exact ih _ b h

/-- Helper: every chunk holds at most 10 ids. -/
theorem chunk10_mem_le (l : List String) (b : List String)
    (hb : b ∈ chunk10 l) : b.length ≤ 10 :=
  chunk10Go_mem_le l.length l b hb

/-- Helper: the batching loop accumulates the concatenation of the
per-batch entry lists. -/
theorem foldl_batch_append (users : List User) (m : StatsMap)
    (bs : List (List String)) (acc : List LeaderboardEntry) :
    bs.foldl (fun a b => a ++ batchEntries users m b) acc
      = acc ++ (bs.map (batchEntries users m)).flatten := by
  induction bs generalizing acc with
  | nil => simp
  | cons b bs ih =>
    simp only [List.foldl_cons, List.map_cons, List.flatten_cons, ih,
      List.append_assoc]

/-- C7. The identity-batch resolution of the windowed leaderboards issues
exactly `⌈n / 10⌉` lookups over consecutive chunks of at most 10 ids, the
chunks concatenate back to the original distinct-id list (so the union of
the queried ids is the original id set), and the leaderboard body is the
concatenation of all per-batch results, sorted and truncated only
afterwards. -/
theorem c7_identity_batching (ids : List String) :
    ((chunk10 ids).length = (ids.length + 9) / 10)
    ∧ (∀ b ∈ chunk10 ids, b.length ≤ 10)
    ∧ ((chunk10 ids).flatten = ids)
    ∧ (∀ (store : Store) (startT nowT : Timestamp) (limit : Nat),
        windowedLeaderboard store startT nowT limit =
          if ((groupStats (windowedApproved store.submissions startT nowT)).map
              Prod.fst).isEmpty then []
          else ((((chunk10 ((groupStats (windowedApproved store.submissions startT
              nowT)).map Prod.fst)).map
                (batchEntries store.users
                  (groupStats (windowedApproved store.submissions startT
                    nowT)))).flatten).insertionSort entryGE).take limit) := by
  refine ⟨chunk10_length ids, chunk10_mem_le ids, chunk10_flatten ids, ?_⟩
  intro store startT nowT limit
  rw [windowedLeaderboard]
  by_cases h : ((groupStats (windowedApproved store.submissions startT
      nowT)).map Prod.fst).isEmpty
  · simp [h]
  · simp only [h, Bool.false_eq_true, if_false]
    rw [foldl_batch_append]
    simp

/-- C7, witness: with 25 distinct ids, three lookups are issued, of sizes
10, 10 and 5, and the chunks concatenate back to the original 25 ids. -/
theorem c7_identity_batching_witness :
    ((chunk10 ids25).length = 3)
    ∧ ((chunk10 ids25).flatten = ids25)
    ∧ ((ids25.drop 20).take 10 ∈ chunk10 ids25 ∧ ((ids25.drop 20).take 10).length ≤ 10)
    ∧ ((chunk10 ids25).map List.length = [10, 10, 5]) :=
  ⟨(c7_identity_batching ids25).1.trans (by decide),
   (c7_identity_batching ids25).2.2.1,
   ⟨by decide, (c7_identity_batching ids25).2.1 ((ids25.drop 20).take 10) (by decide)⟩,
   by decide⟩

/-- Helper: the resolve loop of the challenge leaderboard accumulates the
`filterMap` of the submissions through user resolution, keeping order and
dropping submissions whose submitter is missing. -/
theorem foldl_resolve_eq_filterMap (store : Store) (l : List Submission)
    (acc : List (User × Timestamp)) :
    l.foldl (fun a s =>
        match store.findUser s.userId with
        | some u => a ++ [(u, s.submittedAt)]
        | none => a) acc
      = acc ++ l.filterMap (fun s =>
          (store.findUser s.userId).map (fun u => (u, s.submittedAt))) := by
  induction l generalizing acc with
  | nil => simp
  | cons s l ih =>
    cases h : store.findUser s.userId with
    | none => simp [List.foldl_cons, h, ih]
    | some u =>
      simp only [List.foldl_cons, h, List.filterMap_cons, Option.map_some]
      rw [ih]
      simp

/-- C8. `getChallengeLeaderboard` equals the first `limit` approved
submissions of the challenge in submission-time ascending order, each
mapped to its (user, submittedAt) pair with unresolvable submitters
dropped; hence at most `limit` entries, in non-decreasing submission-time
order, and the empty list (not an error) when the challenge has no
approved submission. -/
theorem c8_challenge_leaderboard (store : Store) (challengeId : String)
    (limit : Nat) :
    (getChallengeLeaderboard store challengeId limit =
      (((approvedFor store.submissions challengeId).insertionSort subLE).take
          limit).filterMap (fun s =>
        (store.findUser s.userId).map (fun u => (u, s.submittedAt))))
    ∧ ((getChallengeLeaderboard store challengeId limit).length ≤ limit)
    ∧ (approvedFor store.submissions challengeId = [] →
        getChallengeLeaderboard store challengeId limit = [])
    ∧ ((getChallengeLeaderboard store challengeId limit).Pairwise
        (fun a b => a.2 ≤ b.2)) := by
  have hmain : getChallengeLeaderboard store challengeId limit =
      (((approvedFor store.submissions challengeId).insertionSort subLE).take
          limit).filterMap (fun s =>
        (store.findUser s.userId).map (fun u => (u, s.submittedAt))) := by
    rw [getChallengeLeaderboard]
    by_cases h : (((approvedFor store.submissions challengeId).insertionSort
        subLE).take limit).isEmpty
    · rw [List.isEmpty_iff] at h
      simp [h]
    · simp only [h, Bool.false_eq_true, if_false]
      rw [foldl_resolve_eq_filterMap]
      simp
  refine ⟨hmain, ?_, ?_, ?_⟩
  · rw [hmain]
    calc ((((approvedFor store.submissions challengeId).insertionSort
        subLE).take limit).filterMap _).length
        ≤ (((approvedFor store.submissions challengeId).insertionSort
            subLE).take limit).length := List.length_filterMap_le _ _
      _ ≤ limit := by
          rw [List.length_take]
          exact Nat.min_le_left _ _
  · intro h
    rw [hmain, h]
    simp
  · rw [hmain]
    have hsorted : (((approvedFor store.submissions challengeId).insertionSort
        subLE).take limit).Pairwise subLE :=
      ((List.sorted_insertionSort subLE
        (approvedFor store.submissions challengeId)).sublist
          (List.take_sublist _ _))
    rw [List.pairwise_filterMap]
    refine hsorted.imp_of_mem ?_
    intro s s' _ _ hle p hp p' hp'
    cases hu : store.findUser s.userId with
    | none => rw [hu] at hp; simp at hp
    | some u =>
      rw [hu] at hp
      cases hu' : store.findUser s'.userId with
      | none => rw [hu'] at hp'; simp at hp'
      | some u' =>
        rw [hu'] at hp'
        have hp2 : p = (u, s.submittedAt) := by simpa using hp.symm
        have hp2' : p' = (u', s'.submittedAt) := by simpa using hp'.symm
        rw [hp2, hp2']
        exact hle

/-- C8, witness: in `storeCh`, the challenge leaderboard for `c1` with
limit 10 is the two resolvable pairs in submission-time order — the
earliest approved submission `s6` is dropped because its submitter `u9`
no longer exists — and with limit 1 only the earliest submission is
considered. -/
theorem c8_challenge_leaderboard_witness :
    (getChallengeLeaderboard storeCh "c1" 10 = [(usrA, 110), (usrB, 115)])
    ∧ ((getChallengeLeaderboard storeCh "c1" 2).length ≤ 2)
    ∧ (approvedFor storeCh.submissions "c9" = [] →
        getChallengeLeaderboard storeCh "c9" 10 = [])
    ∧ ((getChallengeLeaderboard storeCh "c1" 10).Pairwise
        (fun a b => a.2 ≤ b.2)) :=
  ⟨(c8_challenge_leaderboard storeCh "c1" 10).1.trans (by decide),
   (c8_challenge_leaderboard storeCh "c1" 2).2.1,
   (c8_challenge_leaderboard storeCh "c9" 10).2.2.1,
   (c8_challenge_leaderboard storeCh "c1" 10).2.2.2⟩

/-- Helper: looking a key up after appending a fresh entry at the end. -/
theorem lookupStats_append (m : StatsMap) (k : String) (st : UserStats)
    (uid : String) :
    lookupStats uid (m ++ [(k, st)]) =
      match lookupStats uid m with
      | some st0 => some st0
      | none => if k = uid then some st else none := by
  induction m with
  | nil => simp [lookupStats]
  | cons kv m ih =>
    by_cases h : kv.1 = uid
    · simp [lookupStats, h]
    · simp only [List.cons_append, lookupStats, if_neg h]
      exact ih

/-- Helper: looking the touched key up after the increment map of
`addSub`. -/
theorem lookupStats_addmap_self (m : StatsMap) (k : String) (p : Int) :
    lookupStats k (m.map (fun kv =>
        if kv.1 = k then
          (kv.1, (⟨kv.2.points + p, kv.2.submissionCount + 1⟩ : UserStats))
        else kv))
      = (lookupStats k m).map
          (fun st => ⟨st.points + p, st.submissionCount + 1⟩) := by
  induction m with
  | nil => simp [lookupStats]
  | cons kv m ih =>
    by_cases h : kv.1 = k
    · simp [lookupStats, h]
    · simp only [List.map_cons, if_neg h, lookupStats]
      exact ih

/-- Helper: the increment map of `addSub` does not affect other keys. -/
theorem lookupStats_addmap_other (m : StatsMap) (k : String) (p : Int)
    (uid : String) (hne : uid ≠ k) :
    lookupStats uid (m.map (fun kv =>
        if kv.1 = k then
          (kv.1, (⟨kv.2.points + p, kv.2.submissionCount + 1⟩ : UserStats))
        else kv))
      = lookupStats uid m := by
  induction m with
  | nil => simp [lookupStats]
  | cons kv m ih =>
    by_cases h : kv.1 = k
    · have h2 : kv.1 ≠ uid := by rw [h]; exact fun he => hne he.symm
      simp only [List.map_cons, if_pos h, lookupStats]
      rw [if_neg h2, if_neg h2]
      exact ih
    · simp only [List.map_cons, if_neg h, lookupStats]
      by_cases h2 : kv.1 = uid
      · rw [if_pos h2, if_pos h2]
      · rw [if_neg h2, if_neg h2]
        exact ih

/-- Helper: the counted-submission list over a cons. -/
theorem countedFor_cons (uid : String) (s : Submission) (l : List Submission) :
    countedFor uid (s :: l) =
      if skipSub s = false ∧ s.userId = uid then s :: countedFor uid l
      else countedFor uid l := by
  simp only [countedFor, List.filter_cons]
  by_cases h1 : skipSub s
  · simp [h1]
  · by_cases h2 : s.userId = uid
    · simp [h1, h2]
    · simp [h1, h2]

/-- Helper: the predicted points sum over a cons. -/
theorem sumFor_cons (uid : String) (s : Submission) (l : List Submission) :
    sumFor uid (s :: l) =
      if skipSub s = false ∧ s.userId = uid then subPoints s + sumFor uid l
      else sumFor uid l := by
  rw [sumFor, countedFor_cons]
  by_cases hp : skipSub s = false ∧ s.userId = uid
  · rw [if_pos hp, if_pos hp]
    simp [sumFor]
  · rw [if_neg hp, if_neg hp]
    rfl

/-- Helper: the predicted submission count over a cons. -/
theorem cntFor_cons (uid : String) (s : Submission) (l : List Submission) :
    cntFor uid (s :: l) =
      if skipSub s = false ∧ s.userId = uid then cntFor uid l + 1
      else cntFor uid l := by
  rw [cntFor, countedFor_cons]
  by_cases hp : skipSub s = false ∧ s.userId = uid
  · rw [if_pos hp, if_pos hp]
    simp [cntFor]
  · rw [if_neg hp, if_neg hp]
    rfl

/-- Helper: one grouping-loop iteration, seen through `lookupStats`. -/
theorem lookupStats_addSub (m : StatsMap) (s : Submission) (uid : String) :
    lookupStats uid (addSub m s) =
      if skipSub s = false ∧ s.userId = uid then
        match lookupStats uid m with
        | none => some ⟨subPoints s, 1⟩
        | some st => some ⟨st.points + subPoints s, st.submissionCount + 1⟩
      else lookupStats uid m := by
  by_cases hskip : skipSub s
  · rw [addSub, if_pos hskip, if_neg (fun hp => by simp [hp.1] at hskip)]
  · have hsf : skipSub s = false := by simpa using hskip
    rw [addSub, if_neg (by simp [hskip])]
    cases hm : lookupStats s.userId m with
    | none =>
      rw [lookupStats_append]
      by_cases huid : s.userId = uid
      · subst huid
        rw [hm, if_pos rfl, if_pos ⟨hsf, rfl⟩]
      · rw [if_neg huid, if_neg (fun hp => huid hp.2)]
        cases lookupStats uid m <;> rfl
    | some st =>
      by_cases huid : s.userId = uid
      · subst huid
        rw [lookupStats_addmap_self, if_pos ⟨hsf, rfl⟩, hm]
        rfl
      · rw [lookupStats_addmap_other m s.userId (subPoints s) uid
          (fun he => huid he.symm), if_neg (fun hp => huid hp.2)]

/-- Helper: the whole grouping fold, seen through `lookupStats`: starting
from accumulator `m`, the final entry of `uid` carries `m`'s stats plus
the window sum and count of `uid`'s counted submissions. -/
theorem lookupStats_foldl (l : List Submission) (uid : String) : ∀ m : StatsMap,
    lookupStats uid (l.foldl addSub m) =
      match lookupStats uid m with
      | some st =>
        some ⟨st.points + sumFor uid l, st.submissionCount + cntFor uid l⟩
      | none =>
        if cntFor uid l = 0 then none else some ⟨sumFor uid l, cntFor uid l⟩ := by
  induction l with
  | nil =>
    intro m
    simp only [List.foldl_nil, sumFor, cntFor, countedFor, List.filter_nil,
      List.map_nil, List.sum_nil, List.length_nil]
    cases lookupStats uid m <;> simp
  | cons s l ih =>
    intro m
    rw [List.foldl_cons, ih (addSub m s), lookupStats_addSub,
      sumFor_cons, cntFor_cons]
    by_cases hp : skipSub s = false ∧ s.userId = uid
    · rw [if_pos hp, if_pos hp, if_pos hp]
      cases hm : lookupStats uid m with
      | none =>
        simp only
        rw [if_neg (by omega)]
        refine congrArg some ?_
        refine congrArg₂ UserStats.mk ?_ ?_ <;> omega
      | some st =>
        simp only
        refine congrArg some ?_
        refine congrArg₂ UserStats.mk ?_ ?_ <;> omega
    · rw [if_neg hp, if_neg hp, if_neg hp]

/-- Helper: what the grouping pass records for each user: exactly the
window sum and count, with no entry when nothing was counted. -/
theorem lookupStats_groupStats (l : List Submission) (uid : String) :
    lookupStats uid (groupStats l) =
      if cntFor uid l = 0 then none
      else some ⟨sumFor uid l, cntFor uid l⟩ := by
  rw [groupStats, lookupStats_foldl l uid []]
  rfl

/-- Helper: a key is looked up successfully exactly when it occurs in the
key list. -/
theorem lookupStats_isSome_iff (uid : String) (m : StatsMap) :
    (lookupStats uid m).isSome = true ↔ uid ∈ m.map Prod.fst := by
  induction m with
  | nil => simp [lookupStats]
  | cons kv m ih =>
    by_cases h : kv.1 = uid
    · simp [lookupStats, h]
    · simp only [lookupStats, if_neg h, List.map_cons, List.mem_cons, ih]
      constructor
      · exact fun hm => Or.inr hm
      · rintro (he | hm)
        · exact absurd he.symm h
        · exact hm

/-- Helper: every id inside a chunk comes from the chunked list. -/
theorem mem_of_mem_chunk10 (ids : List String) (b : List String)
    (hb : b ∈ chunk10 ids) (x : String) (hx : x ∈ b) : x ∈ ids := by
  rw [← chunk10_flatten ids]
  exact List.mem_flatten.mpr ⟨b, hb, hx⟩

/-- Helper: every entry of a windowed leaderboard is an existing user
carrying exactly the grouped window sum and count of its own id. -/
theorem mem_windowedLeaderboard (store : Store) (startT nowT : Timestamp)
    (limit : Nat) (e : LeaderboardEntry)
    (he : e ∈ windowedLeaderboard store startT nowT limit) :
    e.user ∈ store.users
    ∧ e.points = sumFor e.user.id (windowedApproved store.submissions startT nowT)
    ∧ e.submissionCount
        = cntFor e.user.id (windowedApproved store.submissions startT nowT) := by
  rw [windowedLeaderboard] at he
  by_cases h : ((groupStats (windowedApproved store.submissions startT
      nowT)).map Prod.fst).isEmpty
  · rw [if_pos h] at he
    exact absurd he (List.not_mem_nil e)
  · rw [if_neg h] at he
    have he2 := List.mem_of_mem_take he
    rw [List.mem_insertionSort] at he2
    rw [foldl_batch_append] at he2
    simp only [List.nil_append] at he2
    obtain ⟨L, hL, heL⟩ := List.mem_flatten.mp he2
    obtain ⟨b, hb, rfl⟩ := List.mem_map.mp hL
    simp only [batchEntries, List.mem_map] at heL
    obtain ⟨u, hu, rfl⟩ := heL
    obtain ⟨humem, hucont⟩ := List.mem_filter.mp hu
    have hid : u.id ∈ b := by simpa using hucont
    have hkeys : u.id ∈ (groupStats (windowedApproved store.submissions startT
        nowT)).map Prod.fst := mem_of_mem_chunk10 _ b hb u.id hid
    have hsome := (lookupStats_isSome_iff u.id _).mpr hkeys
    rw [lookupStats_groupStats] at hsome ⊢
    by_cases hcnt : cntFor u.id (windowedApproved store.submissions startT nowT) = 0
    · rw [if_pos hcnt] at hsome
      simp at hsome
    · rw [if_neg hcnt]
      exact ⟨humem, rfl, rfl⟩

/-- C1. For every invocation of `getWeeklyLeaderboard` (and of
`getMonthlyLeaderboard`, which is the same computation applied to its own
window start): each returned entry's points equal the exact sum of the
stored points values (missing read as zero) of that user's APPROVED
submissions reviewed within `[startT, nowT]`, skipping submissions lacking
a review timestamp or challenge reference, and its submission count is the
number of those submissions; the list is sorted by points non-increasing;
it has at most `limit` entries; and an empty approved-submission window
yields `[]`, not an error. -/
theorem c1_windowed_leaderboard (store : Store) (startT nowT : Timestamp)
    (limit : Nat) :
    (∀ e ∈ getWeeklyLeaderboard store startT nowT limit,
        e.points = sumFor e.user.id (windowedApproved store.submissions startT nowT)
        ∧ e.submissionCount
            = cntFor e.user.id (windowedApproved store.submissions startT nowT))
    ∧ ((getWeeklyLeaderboard store startT nowT limit).Pairwise entryGE)
    ∧ ((getWeeklyLeaderboard store startT nowT limit).length ≤ limit)
    ∧ (windowedApproved store.submissions startT nowT = [] →
        getWeeklyLeaderboard store startT nowT limit = [])
    ∧ (getMonthlyLeaderboard store startT nowT limit
        = getWeeklyLeaderboard store startT nowT limit) := by
  refine ⟨?_, ?_, ?_, ?_, rfl⟩
  · intro e he
    exact (mem_windowedLeaderboard store startT nowT limit e he).2
  · rw [getWeeklyLeaderboard, windowedLeaderboard]
    by_cases h : ((groupStats (windowedApproved store.submissions startT
        nowT)).map Prod.fst).isEmpty
    · rw [if_pos h]
      exact List.Pairwise.nil
    · rw [if_neg h]
      exact (List.sorted_insertionSort entryGE _).sublist (List.take_sublist _ _)
  · rw [getWeeklyLeaderboard, windowedLeaderboard]
    by_cases h : ((groupStats (windowedApproved store.submissions startT
        nowT)).map Prod.fst).isEmpty
    · rw [if_pos h]
      exact Nat.zero_le _
    · rw [if_neg h, List.length_take]
      exact Nat.min_le_left _ _
  · intro hA
    rw [getWeeklyLeaderboard, windowedLeaderboard, hA]
    rfl

/-- C1, witness: in `storeCh` over window `[100, 300]` with limit 10, the
entry for `usrA` reports exactly 100 points from 1 counted submission,
the output is sorted non-increasing with at most 10 entries, and the
pending-only store yields the empty list. -/
theorem c1_windowed_leaderboard_witness :
    ((⟨usrA, 100, 1⟩ : LeaderboardEntry) ∈ getWeeklyLeaderboard storeCh 100 300 10)
    ∧ ((100 : Int) = sumFor "u1" (windowedApproved storeCh.submissions 100 300)
        ∧ (1 : Nat) = cntFor "u1" (windowedApproved storeCh.submissions 100 300))
    ∧ ((getWeeklyLeaderboard storeCh 100 300 10).Pairwise entryGE)
    ∧ ((getWeeklyLeaderboard storeCh 100 300 10).length ≤ 10)
    ∧ (getWeeklyLeaderboard storePend 100 300 10 = []) :=
  ⟨by decide,
   (c1_windowed_leaderboard storeCh 100 300 10).1 ⟨usrA, 100, 1⟩ (by decide),
   (c1_windowed_leaderboard storeCh 100 300 10).2.1,
   (c1_windowed_leaderboard storeCh 100 300 10).2.2.1,
   (c1_windowed_leaderboard storePend 100 300 10).2.2.2.1 (by decide)⟩

/-- C10. In the weekly (and the identical monthly) leaderboard, every
returned entry carries an existing user record: a user id present in the
grouped submission totals but with no user document is silently omitted —
the batched identity lookup only returns existing users and no entry is
built for the missing id — and no error is raised (the computation is
total and returns a plain list). -/
theorem c10_windowed_drops_missing_users (store : Store)
    (startT nowT : Timestamp) (limit : Nat) :
    (∀ e ∈ getWeeklyLeaderboard store startT nowT limit, e.user ∈ store.users)
    ∧ (∀ uid, store.findUser uid = none →
        ∀ e ∈ getWeeklyLeaderboard store startT nowT limit, e.user.id ≠ uid)
    ∧ (getMonthlyLeaderboard store startT nowT limit
        = getWeeklyLeaderboard store startT nowT limit) := by
  refine ⟨?_, ?_, rfl⟩
  · intro e he
    exact (mem_windowedLeaderboard store startT nowT limit e he).1
  · intro uid hnone e he heq
    have hmem := (mem_windowedLeaderboard store startT nowT limit e he).1
    have := List.find?_eq_none.mp hnone e.user hmem
    rw [heq] at this
    simp at this

/-- C10, witness: in `storeCh` the grouped totals contain the deleted user
`u9` (one counted approved submission), yet the weekly output's entry for
`usrA` — like every entry — belongs to an existing user and is not `u9`;
no error occurs and the list is just the two existing users' entries. -/
theorem c10_windowed_drops_missing_users_witness :
    (cntFor "u9" (windowedApproved storeCh.submissions 100 300) = 1)
    ∧ (storeCh.findUser "u9" = none)
    ∧ ((⟨usrA, 100, 1⟩ : LeaderboardEntry).user ∈ storeCh.users)
    ∧ ((⟨usrA, 100, 1⟩ : LeaderboardEntry).user.id ≠ "u9")
    ∧ (getWeeklyLeaderboard storeCh 100 300 10
        = [⟨usrA, 100, 1⟩, ⟨usrB, 40, 1⟩]) :=
  ⟨by decide, by decide,
   (c10_windowed_drops_missing_users storeCh 100 300 10).1 ⟨usrA, 100, 1⟩
     (by decide),
   (c10_windowed_drops_missing_users storeCh 100 300 10).2.1 "u9" (by decide)
     ⟨usrA, 100, 1⟩ (by decide),
   by decide⟩
